import Mathlib

/-!
Verification of the MTA audio extractor (`src/mta_extractor.py`).

Shallow embedding conventions:
* A Python `bytes` value is a `List Nat` (each element the value of one byte).
* Python strings produced by this program are ASCII only, so a string is
  likewise a `List Nat` of character codes.
* `int.from_bytes(b, "big")` is `beBytesToNat`.
* Python slicing `data[a:b]` (with nonnegative bounds) is `slice`.
* Fallible operations (Python code that can raise) return `Option`.
* The `while` loop of `parse_audio_entries` is embedded with explicit fuel;
  fuel `data.length` is always sufficient because every iteration requires
  `offset + 32 ≤ data.length` and advances `offset` by 32.
-/

/-- `int.from_bytes(bs, "big")`: big-endian interpretation of a byte string. -/
def beBytesToNat (bs : List Nat) : Nat :=
  bs.foldl (fun acc b => acc * 256 + b) 0

/-- Python slicing `data[a:b]` for `0 ≤ a`, `0 ≤ b` (clamps out-of-range bounds,
yields `[]` when `b ≤ a`). -/
def pySlice (data : List Nat) (a b : Nat) : List Nat :=
  (data.drop a).take (b - a)

/-- `find_dwav_section` from `mta_extractor.py`: `None` if the file is shorter
than `0xC8` bytes or the big-endian u32 at `[0xC4, 0xC8)` is `≥ len(data)`,
otherwise that u32. -/
def find_dwav_section (data : List Nat) : Option Nat :=
  if data.length < 0xC8 then
    none
  else
    let dwav_section_start := beBytesToNat (pySlice data 0xC4 0xC8)
    if dwav_section_start ≥ data.length then none
    else some dwav_section_start

/-- The `while` loop of `parse_audio_entries`, with explicit fuel standing in
for the termination argument (each iteration needs `offset + 32 ≤ data.length`
and advances `offset` by 32, so `data.length` fuel can never run out). -/
def parseEntriesAux (data : List Nat) (dwav_offset : Nat) :
    Nat → Nat → List (Nat × Nat)
  | _, 0 => []
  | offset, fuel + 1 =>
    if offset + 32 ≤ data.length then
      let idx := beBytesToNat (pySlice data offset (offset + 4))
      if idx = 0 ∨ idx > 0xFFFF then
        []
      else
        let audio_ptr := beBytesToNat (pySlice data (offset + 8) (offset + 12))
        let abs_offset := dwav_offset + audio_ptr
        if abs_offset ≥ data.length then
          []
        else
          (idx, abs_offset) :: parseEntriesAux data dwav_offset (offset + 32) fuel
    else []

/-- `parse_audio_entries` from `mta_extractor.py`: scan 32-byte records from
`dwav_offset + 32` while `offset + 32 ≤ len(data)`, stopping at the first
record with index `0`, index `> 0xFFFF`, or absolute offset `≥ len(data)`. -/
def parse_audio_entries (data : List Nat) (dwav_offset : Nat) : List (Nat × Nat) :=
  parseEntriesAux data dwav_offset (dwav_offset + 32) data.length

/-- The characters stripped by Python `str.strip()` on ASCII strings:
`\t \n \x0b \x0c \r \x1c \x1d \x1e \x1f` and space. -/
def isPyWhitespace (c : Nat) : Bool :=
  c = 9 || c = 10 || c = 11 || c = 12 || c = 13 ||
  c = 28 || c = 29 || c = 30 || c = 31 || c = 32

/-- Python `str.strip()` (ASCII fragment): drop leading and trailing
whitespace characters. -/
def pyStrip (s : List Nat) : List Nat :=
  ((s.dropWhile isPyWhitespace).reverse.dropWhile isPyWhitespace).reverse

/-- `extract_sample_name` from `mta_extractor.py`:
`header[:16].decode('ascii', errors='ignore').strip().replace('\x00', '')`.
The `'ascii'` decode with `errors='ignore'` drops every byte `≥ 0x80`; note
that `strip` runs before the NUL characters are removed. The Python
function's `try/except` is dead (no step raises), so the embedding is total. -/
def extract_sample_name (header : List Nat) : List Nat :=
  (pyStrip ((header.take 16).filter (fun b => b < 128))).filter (fun c => c ≠ 0)

/-- `parse_audio_header` from `mta_extractor.py`. The sample rate is the
big-endian u16 at `[0x36, 0x38)` with `0` replaced by `44100`; the channel
count is `2` iff byte `0x49` equals `2`, else `1`. Reading `header[0x49]`
raises `IndexError` when the header is shorter than `0x4A` bytes, which the
embedding models as `none`. -/
def parse_audio_header (header : List Nat) : Option (Nat × Nat) :=
  match header.get? 0x49 with
  | none => none
  | some channels_byte =>
    let sample_rate₀ := beBytesToNat (pySlice header 0x36 0x38)
    let sample_rate := if sample_rate₀ = 0 then 44100 else sample_rate₀
    let channels := if channels_byte = 2 then 2 else 1
    some (sample_rate, channels)

/-- Byte-level effect of `array.array('h', d); a.byteswap(); a.tobytes()` on an
even-length byte string: swap each adjacent pair of bytes. -/
def byteswap16 : List Nat → List Nat
  | a :: b :: rest => b :: a :: byteswap16 rest
  | other => other

/-- `process_pcm_data` from `mta_extractor.py`: drop a trailing odd byte, for
`channels == 1` keep only the first half of the remaining bytes, then byteswap
16-bit words. `array.array('h', d)` raises `ValueError` when `len(d)` is odd
(possible in the mono branch), which the embedding models as `none`. -/
def process_pcm_data (pcm_data : List Nat) (channels : Nat) : Option (List Nat) :=
  let d₁ := if pcm_data.length % 2 ≠ 0 then pcm_data.take (pcm_data.length - 1) else pcm_data
  let d₂ := if channels = 1 then d₁.take (d₁.length / 2) else d₁
  if d₂.length % 2 = 0 then some (byteswap16 d₂) else none

/-- Python `c.isalnum()` restricted to ASCII: decimal digits and latin
letters. -/
def pyIsAlnumAscii (c : Nat) : Bool :=
  (48 ≤ c && c ≤ 57) || (65 ≤ c && c ≤ 90) || (97 ≤ c && c ≤ 122)

/-- The character filter of `sanitize_filename`:
`c.isalnum() or c in (" ", "_", "-")`. -/
def keepChar (c : Nat) : Bool :=
  pyIsAlnumAscii c || c = 32 || c = 95 || c = 45

/-- Python `f"{idx:03d}"` for a nonnegative index: decimal digits, left-padded
with `'0'` to at least three characters. -/
def pad3 (idx : Nat) : List Nat :=
  let ds := (Nat.toDigits 10 idx).map Char.toNat
  List.replicate (3 - ds.length) 48 ++ ds

/-- The fallback name `f"sample_{idx:03d}"` of `sanitize_filename`. -/
def fallbackName (idx : Nat) : List Nat :=
  ("sample_".toList.map Char.toNat) ++ pad3 idx

/-- `sanitize_filename` from `mta_extractor.py`: fallback for an empty name,
else keep only alphanumerics, space, underscore and hyphen, strip, and fall
back if the result is empty. -/
def sanitize_filename (name : List Nat) (idx : Nat) : List Nat :=
  if name = [] then fallbackName idx
  else
    let clean_name := pyStrip (name.filter keepChar)
    if clean_name = [] then fallbackName idx else clean_name

/-- The exclusive end of entry `i`'s byte extent (lines 218–221 of
`extract_mta`): the absolute offset of the next entry when one exists, else
the container length. The entry's `size` is this value minus its start. -/
def entryEnd (data : List Nat) (entries : List (Nat × Nat)) (i : Nat) : Nat :=
  match entries.get? (i + 1) with
  | some e2 => e2.2
  | none => data.length

/-- One iteration of the per-entry loop of `extract_mta` (lines 215–254),
for the entry at position `i` of `entries`. `w i` models whether the external
WAV write for this entry succeeds (`wave` I/O is outside the embedding).
`none` models every way the entry can be skipped: `size < 80`, payload
shorter than 2 bytes, or an exception caught by the per-entry handler
(header `IndexError`, payload `ValueError`, write failure). -/
def entryOutcome (data : List Nat) (entries : List (Nat × Nat))
    (w : Nat → Bool) (i : Nat) : Option Unit :=
  match entries.get? i with
  | none => none
  | some (_, start) =>
    let size : Int := (entryEnd data entries i : Int) - (start : Int)
    if size < (80 : Int) then none
    else
      let header := pySlice data start (start + 80)
      match parse_audio_header header with
      | none => none
      | some (_, channels) =>
        let pcm_data := pySlice data (start + 80) (start + size.toNat)
        if pcm_data.length < 2 then none
        else
          match process_pcm_data pcm_data channels with
          | none => none
          | some _ => if w i then some () else none

/-- The `for` loop of `extract_mta`: visit every entry in order, count the
successful ones; a failed entry contributes nothing and the loop continues. -/
def extractLoop (data : List Nat) (entries : List (Nat × Nat)) (w : Nat → Bool) :
    List (Nat × Nat) → Nat → Nat
  | [], _ => 0
  | _ :: rest, i =>
    (if (entryOutcome data entries w i).isSome then 1 else 0) +
      extractLoop data entries w rest (i + 1)

/-- `extract_mta` from `mta_extractor.py`, restricted to its in-memory core:
the file has been read into `data`, and `w` models the success of each
external WAV write. Returns the number of successfully written entries. -/
def extract_mta (data : List Nat) (w : Nat → Bool) : Nat :=
  match find_dwav_section data with
  | none => 0
  | some dwav_section_start =>
    let entries := parse_audio_entries data dwav_section_start
    if entries = [] then 0
    else extractLoop data entries w entries 0

/-- Instrumented variant of the entry-table walk: additionally returns the
list of byte positions read from `data` (the four index bytes and the four
pointer bytes of each record examined). -/
def parseEntriesReadsAux (data : List Nat) (dwav_offset : Nat) :
    Nat → Nat → List Nat × List (Nat × Nat)
  | _, 0 => ([], [])
  | offset, fuel + 1 =>
    if offset + 32 ≤ data.length then
      let idxReads := [offset, offset + 1, offset + 2, offset + 3]
      let idx := beBytesToNat (pySlice data offset (offset + 4))
      if idx = 0 ∨ idx > 0xFFFF then
        (idxReads, [])
      else
        let ptrReads := [offset + 8, offset + 9, offset + 10, offset + 11]
        let audio_ptr := beBytesToNat (pySlice data (offset + 8) (offset + 12))
        let abs_offset := dwav_offset + audio_ptr
        if abs_offset ≥ data.length then
          (idxReads ++ ptrReads, [])
        else
          let rec_rest := parseEntriesReadsAux data dwav_offset (offset + 32) fuel
          (idxReads ++ ptrReads ++ rec_rest.1, (idx, abs_offset) :: rec_rest.2)
    else ([], [])

/-- Instrumented `parse_audio_entries`: read positions together with the
parsed entries. -/
def parse_audio_entries_reads (data : List Nat) (dwav_offset : Nat) :
    List Nat × List (Nat × Nat) :=
  parseEntriesReadsAux data dwav_offset (dwav_offset + 32) data.length

/-- Byte position where the `j`-th 32-byte entry record starts (the first 32
bytes of the section are a header block, not an entry). -/
def recordBase (dwav_offset j : Nat) : Nat :=
  dwav_offset + 32 + 32 * j

/-- The big-endian u32 index field of the `j`-th entry record. -/
def recordIndex (data : List Nat) (dwav_offset j : Nat) : Nat :=
  beBytesToNat (pySlice data (recordBase dwav_offset j) (recordBase dwav_offset j + 4))

/-- The big-endian u32 relative-pointer field of the `j`-th entry record. -/
def recordPtr (data : List Nat) (dwav_offset j : Nat) : Nat :=
  beBytesToNat (pySlice data (recordBase dwav_offset j + 8) (recordBase dwav_offset j + 12))

/-- The `j`-th entry record is structurally valid: it lies entirely inside the
container, its index is in `1..=0xFFFF`, and its absolute offset is inside the
container. The walker stops at the first record violating this. -/
def recordGood (data : List Nat) (dwav_offset j : Nat) : Bool :=
  decide (recordBase dwav_offset j + 32 ≤ data.length) &&
  decide (recordIndex data dwav_offset j ≠ 0) &&
  decide (recordIndex data dwav_offset j ≤ 0xFFFF) &&
  decide (dwav_offset + recordPtr data dwav_offset j < data.length)

/-- A concrete 300-byte container: section pointer 0 at `[0xC4, 0xC8)` (all
zeros), one valid entry record at offset 32 (index 1, relative pointer 200),
a terminating record of zeros at offset 64, an all-zero 80-byte sample header
at offset 200 and a 20-byte PCM payload. -/
def wData : List Nat :=
  ((List.replicate 300 0).set 35 1).set 43 200


/-! ### Helper lemmas -/

theorem byteswap16_length : ∀ l : List Nat, (byteswap16 l).length = l.length
  | [] => rfl
  | [_] => rfl
  | _ :: _ :: rest => by simp [byteswap16, byteswap16_length rest]

theorem byteswap16_involutive : ∀ l : List Nat, byteswap16 (byteswap16 l) = l
  | [] => rfl
  | [_] => rfl
  | _ :: _ :: rest => by simp [byteswap16, byteswap16_involutive rest]

/-- Closed form of `process_pcm_data`: writing `T` for the even-truncated
input length, the stereo path always produces the byteswap of the first `T`
bytes, and the mono path produces the byteswap of the first `T / 2` bytes
when `T / 2` is even and fails (`ValueError`) otherwise. -/
theorem process_pcm_data_char (pcm_data : List Nat) (channels : Nat) :
    process_pcm_data pcm_data channels =
      if channels = 1 then
        (if (pcm_data.length - pcm_data.length % 2) / 2 % 2 = 0 then
          some (byteswap16 (pcm_data.take ((pcm_data.length - pcm_data.length % 2) / 2)))
        else none)
      else some (byteswap16 (pcm_data.take (pcm_data.length - pcm_data.length % 2))) := by
  simp only [process_pcm_data]
  have htrim :
      (if pcm_data.length % 2 ≠ 0 then pcm_data.take (pcm_data.length - 1) else pcm_data)
        = pcm_data.take (pcm_data.length - pcm_data.length % 2) := by
    split_ifs with hp
    · congr 1; omega
    · rw [show pcm_data.length - pcm_data.length % 2 = pcm_data.length by omega]
      exact (List.take_length pcm_data).symm
  rw [htrim]
  have hlen1 : (pcm_data.take (pcm_data.length - pcm_data.length % 2)).length
      = pcm_data.length - pcm_data.length % 2 := by
    rw [List.length_take, Nat.min_eq_left (by omega)]
  by_cases hc : channels = 1
  · rw [if_pos hc, if_pos hc, hlen1, List.take_take,
      Nat.min_eq_left (Nat.div_le_self _ _), List.length_take,
      Nat.min_eq_left (by omega)]
  · rw [if_neg hc, if_neg hc, hlen1, if_pos (by omega : (pcm_data.length - pcm_data.length % 2) % 2 = 0)]

/-! ### Claims about the Payload Transformer -/

/-- C1 counterexample: on the two-byte payload `[1, 2]` with `channels = 1`,
`process_pcm_data` does not return normally — the mono branch keeps a single
byte and `array.array('h', ...)` raises `ValueError` (modelled as `none`),
so the result is not an even-length buffer. -/
theorem process_pcm_data_mono_two_byte_raises :
    process_pcm_data [1, 2] 1 = none := by decide

/-- C1 amended: for `channels = 2`, `process_pcm_data` always returns
normally; for `channels = 1` it returns normally exactly when the
even-truncated payload length is not `≡ 2 (mod 4)`; whenever it returns, the
resulting little-endian buffer has even length. -/
theorem process_pcm_data_amended_totality (pcm_data : List Nat) (channels : Nat)
    (h : channels = 1 ∨ channels = 2) :
    (process_pcm_data pcm_data channels = none ↔
      channels = 1 ∧ (pcm_data.length - pcm_data.length % 2) % 4 = 2)
    ∧ ∀ out, process_pcm_data pcm_data channels = some out → out.length % 2 = 0 := by
  rcases h with h | h <;> subst h
  · by_cases hmod : (pcm_data.length - pcm_data.length % 2) % 4 = 2
    · rw [process_pcm_data_char, if_pos rfl, if_neg (by omega)]
      exact ⟨by simp [hmod], fun out hout => Option.noConfusion hout⟩
    · have heven : (pcm_data.length - pcm_data.length % 2) / 2 % 2 = 0 := by omega
      rw [process_pcm_data_char, if_pos rfl, if_pos heven]
      refine ⟨by simp [hmod], fun out hout => ?_⟩
      injection hout with h'
      rw [← h', byteswap16_length, List.length_take, Nat.min_eq_left (by omega)]
      exact heven
  · rw [process_pcm_data_char, if_neg (by omega)]
    refine ⟨by simp, fun out hout => ?_⟩
    injection hout with h'
    rw [← h', byteswap16_length, List.length_take, Nat.min_eq_left (by omega)]
    omega

/-- C1 amended, witnessed at the counterexample input `[1, 2]` with
`channels = 1` (the failure condition of the amended claim holds there). -/
theorem process_pcm_data_amended_totality_witness :
    process_pcm_data [1, 2] 1 = none ↔
      1 = 1 ∧ (([1, 2] : List Nat).length - ([1, 2] : List Nat).length % 2) % 4 = 2 :=
  (process_pcm_data_amended_totality [1, 2] 1 (Or.inl rfl)).1

/-- C7: for stereo payloads, byte-swapping each 16-bit word of the Payload
Transformer's output recovers exactly the input truncated to even length
(the transformation is the length-preserving 16-bit byteswap of the
even-truncated input). -/
theorem process_pcm_data_stereo_roundtrip (pcm_data : List Nat) :
    (process_pcm_data pcm_data 2).map byteswap16
      = some (pcm_data.take (pcm_data.length - pcm_data.length % 2)) := by
  rw [process_pcm_data_char, if_neg (by omega), Option.map_some']
  rw [byteswap16_involutive]

/-- C8: a mono payload made of two equal-length even halves is transformed to
exactly the byte-swapped first half (same byte count as the first half); the
second half has no effect on the output. -/
theorem process_pcm_data_mono_first_half (first second : List Nat)
    (h1 : first.length = second.length) (h2 : first.length % 2 = 0) :
    process_pcm_data (first ++ second) 1 = some (byteswap16 first)
      ∧ (byteswap16 first).length = first.length := by
  have hhalf : ((first ++ second).length - (first ++ second).length % 2) / 2
      = first.length := by
    rw [List.length_append]; omega
  refine ⟨?_, byteswap16_length first⟩
  rw [process_pcm_data_char, if_pos rfl, hhalf, if_pos h2, List.take_left]

/-- C8 witnessed on the concrete payload `[1, 2] ++ [3, 4]`. -/
theorem process_pcm_data_mono_first_half_witness :
    process_pcm_data ([1, 2] ++ [3, 4]) 1 = some (byteswap16 [1, 2])
      ∧ (byteswap16 [1, 2]).length = ([1, 2] : List Nat).length :=
  process_pcm_data_mono_first_half [1, 2] [3, 4] rfl rfl

/-! ### Claims about the Container Locator and Sample Header Parser -/

/-- C5: `find_dwav_section` returns `none` exactly when the container is
shorter than `0xC8` bytes or the big-endian u32 at `[0xC4, 0xC8)` is at least
the container length; otherwise it returns that integer, which is then
strictly less than the container length. The embedding is a plain function
of the bytes, so determinism and absence of side effects are immediate. -/
theorem find_dwav_section_spec (data : List Nat) :
    (find_dwav_section data = none ↔
      data.length < 0xC8 ∨ data.length ≤ beBytesToNat (pySlice data 0xC4 0xC8))
    ∧ ∀ s, find_dwav_section data = some s →
        s = beBytesToNat (pySlice data 0xC4 0xC8) ∧ s < data.length := by
  unfold find_dwav_section
  split_ifs <;> refine ⟨?_, ?_⟩ <;> simp_all

set_option maxRecDepth 10000 in
/-- C5 witnessed on the concrete container `wData` (section pointer `0`). -/
theorem find_dwav_section_spec_witness :
    0 = beBytesToNat (pySlice wData 0xC4 0xC8) ∧ 0 < wData.length :=
  (find_dwav_section_spec wData).2 0 (by decide)

/-- C6: on every 80-byte header, `parse_audio_header` succeeds and returns
the big-endian u16 at `[0x36, 0x38)` (with a decoded `0` replaced by `44100`,
so the rate is never `0`) and channel count `2` iff the byte at `0x49` is
`2`, else `1`. -/
theorem parse_audio_header_spec (header : List Nat) (h : header.length = 80) :
    parse_audio_header header =
      some (if beBytesToNat (pySlice header 0x36 0x38) = 0 then 44100
            else beBytesToNat (pySlice header 0x36 0x38),
            if header.getD 0x49 0 = 2 then 2 else 1)
    ∧ ∀ sr ch, parse_audio_header header = some (sr, ch) →
        sr ≠ 0 ∧ (ch = 1 ∨ ch = 2) := by
  cases hg : header[0x49]? with
  | none =>
    have := List.getElem?_eq_none_iff.1 hg
    omega
  | some cb =>
    constructor
    · simp [parse_audio_header, hg]
    · intro sr ch hsrch
      simp [parse_audio_header, hg] at hsrch
      obtain ⟨hsr, hch⟩ := hsrch
      constructor
      · rw [← hsr]; split_ifs with h0 <;> omega
      · rw [← hch]; split_ifs <;> simp

/-- C6 witnessed on the all-zero 80-byte header: rate `0` is replaced by
`44100` and channel byte `0` gives mono. -/
theorem parse_audio_header_spec_witness :
    parse_audio_header (List.replicate 80 0) =
      some (if beBytesToNat (pySlice (List.replicate 80 0) 0x36 0x38) = 0 then 44100
            else beBytesToNat (pySlice (List.replicate 80 0) 0x36 0x38),
            if (List.replicate 80 0).getD 0x49 0 = 2 then 2 else 1)
    ∧ ∀ sr ch, parse_audio_header (List.replicate 80 0) = some (sr, ch) →
        sr ≠ 0 ∧ (ch = 1 ∨ ch = 2) :=
  parse_audio_header_spec (List.replicate 80 0) (by decide)

/-! ### Claims about filename sanitisation and name extraction -/

/-- C9: `sanitize_filename` keeps only alphanumerics, space, underscore and
hyphen, strips whitespace, and falls back to `sample_{idx:03d}` when the name
is empty or the filtered-and-stripped result is empty; `"Kick!! #1"` becomes
`"Kick 1"` and a whitespace-only name with index 7 becomes `"sample_007"`. -/
theorem sanitize_filename_spec :
    (∀ (name : List Nat) (idx : Nat),
        sanitize_filename name idx =
          if name = [] ∨ pyStrip (name.filter keepChar) = [] then fallbackName idx
          else pyStrip (name.filter keepChar))
    ∧ (∀ idx : Nat,
        sanitize_filename ("Kick!! #1".toList.map Char.toNat) idx
          = ("Kick 1".toList.map Char.toNat))
    ∧ sanitize_filename (" ".toList.map Char.toNat) 7
        = ("sample_007".toList.map Char.toNat) := by
  refine ⟨fun name idx => ?_, fun idx => rfl, by decide⟩
  unfold sanitize_filename
  by_cases h1 : name = []
  · simp [h1]
  · by_cases h2 : pyStrip (name.filter keepChar) = [] <;> simp [h1, h2]

/-- C10: `extract_sample_name` strips whitespace before removing NUL bytes,
so a NUL byte shielding leading whitespace (as in the 16-byte name field
`[0, 32, 97]`, i.e. `"\x00 a"`) leaves that whitespace in the result; still,
the result never contains a NUL character, and the embedding is a total
function (the Python `try/except` is unreachable). -/
theorem extract_sample_name_no_nul_strip_order :
    (∀ header : List Nat,
        ((extract_sample_name header).all fun c => c ≠ 0) = true)
    ∧ extract_sample_name [0, 32, 97] = [32, 97]
    ∧ isPyWhitespace 32 = true := by
  refine ⟨fun header => ?_, by decide, rfl⟩
  rw [List.all_eq_true]
  intro c hc
  have hmem := (List.mem_filter.1 hc).2
  simpa using hmem

/-! ### Claims about the Entry Table Walker -/

theorem parseEntriesReadsAux_spec (data : List Nat) (dwav_offset : Nat) :
    ∀ (fuel offset : Nat),
      (parseEntriesReadsAux data dwav_offset offset fuel).2
          = parseEntriesAux data dwav_offset offset fuel
        ∧ ((parseEntriesReadsAux data dwav_offset offset fuel).1.all
            fun p => p < data.length) = true := by
  intro fuel
  induction fuel with
  | zero => exact fun offset => ⟨rfl, rfl⟩
  | succ fuel ih =>
    intro offset
    by_cases h32 : offset + 32 ≤ data.length
    · by_cases hidx : beBytesToNat (pySlice data offset (offset + 4)) = 0 ∨
          beBytesToNat (pySlice data offset (offset + 4)) > 0xFFFF
      · constructor
        · simp [parseEntriesReadsAux, parseEntriesAux, h32, hidx]
        · simp [parseEntriesReadsAux, h32, hidx, List.all]
          omega
      · by_cases habs : dwav_offset + beBytesToNat (pySlice data (offset + 8) (offset + 12))
            ≥ data.length
        · constructor
          · simp [parseEntriesReadsAux, parseEntriesAux, h32, hidx, habs]
          · simp [parseEntriesReadsAux, h32, hidx, habs, List.all]
            omega
        · obtain ⟨ih1, ih2⟩ := ih (offset + 32)
          constructor
          · simp [parseEntriesReadsAux, parseEntriesAux, h32, hidx, habs, ih1]
          · simp [parseEntriesReadsAux, h32, hidx, habs, List.all_append, ih2, List.all]
            omega
    · exact ⟨by simp [parseEntriesReadsAux, parseEntriesAux, h32],
        by simp [parseEntriesReadsAux, h32]⟩

/-- C2: the instrumented walk performs exactly the reads of
`parse_audio_entries` (same scan, same result), and every byte position it
reads is strictly inside the container: records are only examined while
`offset + 32 ≤ len(data)`, so no record read is out of bounds. -/
theorem parse_audio_entries_reads_in_bounds (data : List Nat) (dwav_offset : Nat) :
    (parse_audio_entries_reads data dwav_offset).2 = parse_audio_entries data dwav_offset
    ∧ ((parse_audio_entries_reads data dwav_offset).1.all fun p => p < data.length) = true :=
  parseEntriesReadsAux_spec data dwav_offset data.length (dwav_offset + 32)

theorem parseEntriesAux_records (data : List Nat) (dwav_offset : Nat) :
    ∀ (fuel m : Nat), data.length - recordBase dwav_offset m ≤ fuel →
      (parseEntriesAux data dwav_offset (recordBase dwav_offset m) fuel
          = (List.range
              (parseEntriesAux data dwav_offset (recordBase dwav_offset m) fuel).length).map
              (fun t => (recordIndex data dwav_offset (m + t),
                dwav_offset + recordPtr data dwav_offset (m + t))))
      ∧ recordGood data dwav_offset
          (m + (parseEntriesAux data dwav_offset (recordBase dwav_offset m) fuel).length) = false
      ∧ ∀ t < (parseEntriesAux data dwav_offset (recordBase dwav_offset m) fuel).length,
          recordGood data dwav_offset (m + t) = true := by
  intro fuel
  induction fuel with
  | zero =>
    intro m hm
    have h32 : ¬ (recordBase dwav_offset m + 32 ≤ data.length) := by omega
    refine ⟨rfl, by simp [parseEntriesAux, recordGood, h32], ?_⟩
    intro t ht
    simp [parseEntriesAux] at ht
  | succ fuel ih =>
    intro m hm
    by_cases h32 : recordBase dwav_offset m + 32 ≤ data.length
    · by_cases hidx : beBytesToNat (pySlice data (recordBase dwav_offset m)
          (recordBase dwav_offset m + 4)) = 0 ∨
          beBytesToNat (pySlice data (recordBase dwav_offset m)
            (recordBase dwav_offset m + 4)) > 0xFFFF
      · have hstep : parseEntriesAux data dwav_offset (recordBase dwav_offset m) (fuel + 1)
            = [] := by
          simp [parseEntriesAux, h32, hidx]
        refine ⟨by simp [hstep], ?_, by rw [hstep]; intro t ht; simp at ht⟩
        rw [hstep]
        rcases hidx with h0 | hbig
        · simp [recordGood, recordIndex, h0]
        · have hnle : ¬ (beBytesToNat (pySlice data (recordBase dwav_offset m)
              (recordBase dwav_offset m + 4)) ≤ 0xFFFF) := by omega
          simp [recordGood, recordIndex, hnle]
      · by_cases habs : dwav_offset + beBytesToNat (pySlice data
            (recordBase dwav_offset m + 8) (recordBase dwav_offset m + 12)) ≥ data.length
        · have hstep : parseEntriesAux data dwav_offset (recordBase dwav_offset m) (fuel + 1)
              = [] := by
            simp [parseEntriesAux, h32, hidx, habs]
          refine ⟨by simp [hstep], ?_, by rw [hstep]; intro t ht; simp at ht⟩
          rw [hstep]
          have hnlt : ¬ (dwav_offset + beBytesToNat (pySlice data
              (recordBase dwav_offset m + 8) (recordBase dwav_offset m + 12))
                < data.length) := by omega
          simp [recordGood, recordPtr, hnlt]
        · have hbase : recordBase dwav_offset m + 32 = recordBase dwav_offset (m + 1) := by
            simp [recordBase]; ring
          have hstep : parseEntriesAux data dwav_offset (recordBase dwav_offset m) (fuel + 1)
              = (beBytesToNat (pySlice data (recordBase dwav_offset m)
                    (recordBase dwav_offset m + 4)),
                  dwav_offset + beBytesToNat (pySlice data (recordBase dwav_offset m + 8)
                    (recordBase dwav_offset m + 12)))
                :: parseEntriesAux data dwav_offset (recordBase dwav_offset (m + 1)) fuel := by
            rw [← hbase]
            simp [parseEntriesAux, h32, hidx, habs]
          have hfuel : data.length - recordBase dwav_offset (m + 1) ≤ fuel := by
            rw [← hbase]; omega
          obtain ⟨ih1, ih2, ih3⟩ := ih (m + 1) hfuel
          refine ⟨?_, ?_, ?_⟩
          · have hmap :
                List.map ((fun t => (recordIndex data dwav_offset (m + t),
                    dwav_offset + recordPtr data dwav_offset (m + t))) ∘ Nat.succ)
                  (List.range (parseEntriesAux data dwav_offset
                    (recordBase dwav_offset (m + 1)) fuel).length)
                = List.map (fun t => (recordIndex data dwav_offset (m + 1 + t),
                    dwav_offset + recordPtr data dwav_offset (m + 1 + t)))
                  (List.range (parseEntriesAux data dwav_offset
                    (recordBase dwav_offset (m + 1)) fuel).length) := by
              apply List.map_congr_left
              intro t _
              have harith : m + (t + 1) = m + 1 + t := by omega
              simp [Function.comp, harith]
            rw [hstep, List.length_cons, List.range_succ_eq_map, List.map_cons,
              List.map_map, hmap, ← ih1]
            rfl
          · rw [hstep, List.length_cons]
            convert ih2 using 2
            omega
          · intro t ht
            rw [hstep, List.length_cons] at ht
            cases t with
            | zero =>
              push_neg at hidx
              obtain ⟨hne, hle⟩ := hidx
              have habs' : dwav_offset + beBytesToNat (pySlice data
                  (recordBase dwav_offset m + 8) (recordBase dwav_offset m + 12))
                    < data.length := by omega
              simp [recordGood, recordIndex, recordPtr, h32, hne, hle, habs']
            | succ s =>
              have hs : s < (parseEntriesAux data dwav_offset
                  (recordBase dwav_offset (m + 1)) fuel).length := by omega
              convert ih3 s hs using 2
              omega
    · have hstep : parseEntriesAux data dwav_offset (recordBase dwav_offset m) (fuel + 1)
          = [] := by
        simp [parseEntriesAux, h32]
      refine ⟨by simp [hstep], ?_, by rw [hstep]; intro t ht; simp at ht⟩
      rw [hstep]
      simp [recordGood, h32]

/-- C3: the Entry Table Walker's output is exactly the `(index, section_offset
+ relative_pointer)` pairs of the consecutive records preceding the first
structurally invalid record (index `0`, index `> 0xFFFF`, absolute offset
`≥ length`, or a record extending past the container): the record at the
stopping position is invalid, every earlier record is valid, and hence every
emitted entry has `1 ≤ index ≤ 0xFFFF` and `absolute_offset < length`. -/
theorem parse_audio_entries_characterization (data : List Nat) (dwav_offset : Nat) :
    parse_audio_entries data dwav_offset
        = (List.range (parse_audio_entries data dwav_offset).length).map
            (fun j => (recordIndex data dwav_offset j,
              dwav_offset + recordPtr data dwav_offset j))
      ∧ recordGood data dwav_offset (parse_audio_entries data dwav_offset).length = false
      ∧ ((List.range (parse_audio_entries data dwav_offset).length).all
          fun j => recordGood data dwav_offset j) = true
      ∧ ((parse_audio_entries data dwav_offset).all
          fun e => decide (1 ≤ e.1) && decide (e.1 ≤ 0xFFFF)
            && decide (e.2 < data.length)) = true := by
  have hbase0 : recordBase dwav_offset 0 = dwav_offset + 32 := by simp [recordBase]
  obtain ⟨h1, h2, h3⟩ := parseEntriesAux_records data dwav_offset data.length 0 (Nat.sub_le _ _)
  rw [hbase0] at h1 h2 h3
  simp only [Nat.zero_add] at h1 h2 h3
  unfold parse_audio_entries
  refine ⟨h1, h2, ?_, ?_⟩
  · rw [List.all_eq_true]
    intro j hj
    simpa using h3 j (List.mem_range.1 hj)
  · rw [List.all_eq_true]
    intro e he
    rw [h1] at he
    obtain ⟨j, hjmem, hje⟩ := List.mem_map.1 he
    have hgood := h3 j (List.mem_range.1 hjmem)
    simp only [recordGood, Bool.and_eq_true, decide_eq_true_eq] at hgood
    obtain ⟨⟨⟨hfit, hne⟩, hle⟩, hlt⟩ := hgood
    rw [← hje]
    simp only [Bool.and_eq_true, decide_eq_true_eq]
    exact ⟨⟨by omega, hle⟩, hlt⟩

/-! ### Claims about the Extraction Orchestrator -/

theorem extractLoop_countP (data : List Nat) (entries : List (Nat × Nat)) (w : Nat → Bool) :
    ∀ (rest : List (Nat × Nat)) (i : Nat),
      extractLoop data entries w rest i
        = (List.range' i rest.length).countP
            (fun t => (entryOutcome data entries w t).isSome) := by
  intro rest
  induction rest with
  | nil => intro i; simp [extractLoop]
  | cons hd tl ih =>
    intro i
    rw [extractLoop, List.length_cons, List.range'_succ, List.countP_cons, ih (i + 1)]
    omega

/-- C4: when a section is found and the entry table is nonempty, `extract_mta`
returns exactly the number of entries whose individual processing (including
the external write) succeeds — every entry is visited, so one failing entry
removes only its own contribution — and the outcome of entry `i` depends only
on the container, the entry table and the write behaviour at `i` itself, not
on any other entry's success or failure. -/
theorem extract_mta_counts_and_isolates (data : List Nat) (w w' : Nat → Bool)
    (dwav_offset i : Nat)
    (h1 : find_dwav_section data = some dwav_offset)
    (h2 : parse_audio_entries data dwav_offset ≠ [])
    (h3 : w i = w' i) :
    extract_mta data w
        = (List.range (parse_audio_entries data dwav_offset).length).countP
            (fun j => (entryOutcome data (parse_audio_entries data dwav_offset) w j).isSome)
      ∧ entryOutcome data (parse_audio_entries data dwav_offset) w i
          = entryOutcome data (parse_audio_entries data dwav_offset) w' i := by
  constructor
  · unfold extract_mta
    simp only [h1]
    rw [if_neg h2, extractLoop_countP, List.range_eq_range']
  · unfold entryOutcome
    rw [h3]

set_option maxRecDepth 10000 in
/-- C4 witnessed on the concrete container `wData`, whose entry table has the
single entry `(1, 200)` and whose write succeeds. -/
theorem extract_mta_counts_and_isolates_witness :
    extract_mta wData (fun _ => true)
        = (List.range (parse_audio_entries wData 0).length).countP
            (fun j => (entryOutcome wData (parse_audio_entries wData 0) (fun _ => true) j).isSome)
      ∧ entryOutcome wData (parse_audio_entries wData 0) (fun _ => true) 0
          = entryOutcome wData (parse_audio_entries wData 0) (fun _ => true) 0 :=
  extract_mta_counts_and_isolates wData (fun _ => true) (fun _ => true) 0 0
    (by decide) (by decide) rfl
